import Mathlib

/-!
Verification development for the debforge Debian-package staging tool.

The definitions below are a shallow embedding of the program's source
(`src/args.rs`, `src/forge/mod.rs`, `src/forge/deb_files.rs`):

  * Rust `String`/`&str` values are Lean `String`s (paths included; `Path::join`
    and `Path::push` with a relative, non-empty component are modelled as
    joining with a single separator),
  * the filesystem is passed explicitly (a tree of entries for the scanner, a
    content map and an existence predicate for the materializer),
  * `panic!`/`exit_err!`/`expect` are modelled as `Except.error` carrying the
    message, and
  * printing is ignored.

Definitions carrying a doc comment starting with `Modelled from the spec:`
correspond to code of the repository that is not among the provided source
files (only its callers or declarations are); they are written from the
specification's words instead.
-/

/-- Model of joining a path with a relative, non-empty component
(`Path::join` / `PathBuf::push` in the source). -/
def pathJoin (a b : String) : String := a ++ "/" ++ b

/-- Decide whether `needle` occurs as a contiguous sublist of `hay`.
Model of Rust `str::contains` with a literal pattern. -/
def containsSub (needle : List Char) : List Char → Bool
  | [] => needle.isEmpty
  | c :: rest => needle.isPrefixOf (c :: rest) || containsSub needle rest

/-- Rust `str::contains(pat)` for a literal pattern `needle`. -/
def strContains (hay needle : String) : Bool := containsSub needle.data hay.data

/-- Fuel-bounded replacement of all non-overlapping occurrences of `pat`
(leftmost first).  The fuel is instantiated with the length of the subject
list, which always suffices because every step consumes at least one
character. -/
def replaceFuel (pat rep : List Char) : Nat → List Char → List Char
  | 0, s => s
  | _ + 1, [] => []
  | fuel + 1, c :: rest =>
    if pat.isPrefixOf (c :: rest) then
      rep ++ replaceFuel pat rep fuel ((c :: rest).drop pat.length)
    else
      c :: replaceFuel pat rep fuel rest

/-- Model of Rust `str::replace(pat, rep)` (replace every non-overlapping
occurrence, scanning left to right).  The patterns used by the program are
the five non-empty `$`-variables, so the empty-pattern case (where Rust
would insert `rep` at every character boundary) is mapped to the identity
and never exercised. -/
def strReplace (s pat rep : String) : String :=
  if pat.data.isEmpty then s
  else ⟨replaceFuel pat.data rep.data s.data.length s.data⟩

/-- Strip one trailing carriage return, as `BufRead::lines` does after it has
stripped the line feed. -/
def stripCR (s : String) : String :=
  if s.data.getLast? = some '\r' then ⟨s.data.dropLast⟩ else s

/-- Split a character list at every occurrence of the separator `c`; the
pieces do not contain `c`, and a trailing separator produces a trailing
empty piece (the behaviour of `String::split` with a single-character
pattern). -/
def splitOnChar (c : Char) : List Char → List (List Char)
  | [] => [[]]
  | x :: rest =>
    match splitOnChar c rest with
    | [] => [[x]]
    | piece :: pieces =>
      if x = c then [] :: piece :: pieces else (x :: piece) :: pieces

/-- Model of Rust `BufRead::lines` on the full contents of a reader: split at
every line feed, drop the trailing empty piece produced by a final line feed,
and strip a carriage return from every piece that was terminated by a line
feed (a final piece that ends at end-of-file keeps a trailing carriage
return, exactly as in Rust). -/
def rustLines (s : String) : List String :=
  let parts := (splitOnChar '\n' s.data).map (fun l => (⟨l⟩ : String))
  let init := (parts.dropLast).map stripCR
  match parts.getLast? with
  | some "" => init
  | some lastPiece => init ++ [lastPiece]
  | none => init

/-- Rust `char::to_ascii_lowercase`. -/
def asciiLowercaseChar (c : Char) : Char :=
  if 'A' ≤ c ∧ c ≤ 'Z' then Char.ofNat (c.toNat + 32) else c

/-- Rust `str::make_ascii_lowercase` (applied functionally). -/
def asciiLowercase (s : String) : String := ⟨s.data.map asciiLowercaseChar⟩

/-- Rust `str::rsplit_once(c)`: split at the last occurrence of `c` into the
part before and the part after it. -/
def rsplitOnce (s : String) (c : Char) : Option (String × String) :=
  if c ∈ s.data then
    let suffix := (s.data.reverse.takeWhile (fun x => x ≠ c)).reverse
    some (⟨s.data.take (s.data.length - suffix.length - 1)⟩, ⟨suffix⟩)
  else
    none

/-- The `Architecture` enum of `src/args.rs`. -/
inductive Architecture where
  | Amd64
  | Arm64
deriving DecidableEq

/-- The `impl From<String> for Architecture` of `src/args.rs`: ASCII-lowercase
the input, then match it against the fixed alias arms; anything else is the
fatal `invalid target/architecture` error. -/
def Architecture.resolve (value0 : String) : Except String Architecture :=
  match asciiLowercase value0 with
  | "x86_64-unknown-linux-gnu" | "amd" | "x86" | "x86_64" => Except.ok Architecture.Amd64
  | "aarch64-unknown-linux-gnu" | "arm" | "aarch64" => Except.ok Architecture.Arm64
  | _ => Except.error ("invalid target/architecture: " ++ asciiLowercase value0)

/-- `Architecture::target` of `src/args.rs`. -/
def Architecture.target : Architecture → String
  | Architecture.Amd64 => "x86_64-unknown-linux-gnu"
  | Architecture.Arm64 => "aarch64-unknown-linux-gnu"

/-- `Architecture::short` of `src/args.rs`. -/
def Architecture.short : Architecture → String
  | Architecture.Amd64 => "amd64"
  | Architecture.Arm64 => "arm64"

/-- Modelled from the spec: `Architecture::platform_bin_path` is called by
`Variables::get_binary_path` but is not among the provided source files.
Per the spec each variant carries a fixed platform binary-output subpath;
it is modelled as the cargo release directory of the variant's target
triple.  Its exact value is immaterial to every theorem below. -/
def Architecture.platform_bin_path (a : Architecture) : String :=
  "target/" ++ a.target ++ "/release"

/-- The `FileType` enum of `src/forge/deb_files.rs`. -/
inductive FileType where
  | Control
  | Changelog
  | Copyright
  | Binary
  | Icon64
  | Icon128
  | Icon256
  | Icon512
  | Desktop
  | Install
  | PreInst
  | PostInst
  | PreRm
  | PostRm
  | ConfFiles
  | Watch
  | Format
  | Dirs
  | Docs
  | Menu
  | ManPages
deriving DecidableEq

/-- The `ICON_FORMATS` constant of `src/forge/deb_files.rs`. -/
def ICON_FORMATS : List String := ["png", "jpg", "jpeg", "tiff", "svg"]

/-- The `ICONS` constant of `src/forge/deb_files.rs` (iteration order of the
icon-resolution roles). -/
def ICONS : List FileType :=
  [FileType.Icon64, FileType.Icon128, FileType.Icon256, FileType.Icon512]

/-- `FileType::from` of `src/forge/deb_files.rs` (named `fromStr` because
`from` is a Lean keyword): the reserved extensionless basenames. -/
def FileType.fromStr (str : String) : Option FileType :=
  match str with
  | "control" => some FileType.Control
  | "changelog" => some FileType.Changelog
  | "copyright" => some FileType.Copyright
  | "install" => some FileType.Install
  | "preinst" => some FileType.PreInst
  | "postinst" => some FileType.PostInst
  | "prerm" => some FileType.PreRm
  | "postrm" => some FileType.PostRm
  | "conffiles" => some FileType.ConfFiles
  | "watch" => some FileType.Watch
  | "format" => some FileType.Format
  | "dirs" => some FileType.Dirs
  | "docs" => some FileType.Docs
  | "desktop" => some FileType.Desktop
  | "menu" => some FileType.Menu
  | "manpages" => some FileType.ManPages
  | _ => none

/-- `FileType::is_text` of `src/forge/deb_files.rs`: everything except the
four icon roles and the binary. -/
def FileType.is_text (ft : FileType) : Bool :=
  !(match ft with
    | FileType.Icon64 | FileType.Icon128 | FileType.Icon256 | FileType.Icon512
    | FileType.Binary => true
    | _ => false)

/-- Modelled from the spec: `FileType::is_icon` is called at the byte-copy
branch of `Variables::write_file` but is not among the provided source
files; per its name and the spec's icon-resolution roles it is modelled as
holding exactly for the four icon roles. -/
def FileType.is_icon (ft : FileType) : Bool :=
  match ft with
  | FileType.Icon64 | FileType.Icon128 | FileType.Icon256 | FileType.Icon512 => true
  | _ => false

/-- `FileType::width` of `src/forge/deb_files.rs`; `none` models the
`unreachable!` arm for non-icon roles. -/
def FileType.width : FileType → Option String
  | FileType.Icon64 => some "64"
  | FileType.Icon128 => some "128"
  | FileType.Icon256 => some "256"
  | FileType.Icon512 => some "512"
  | _ => none

/-- `FileType::resolution` of `src/forge/deb_files.rs`; `none` models the
`unreachable!` arm for non-icon roles. -/
def FileType.resolution : FileType → Option String
  | FileType.Icon64 => some "64x64"
  | FileType.Icon128 => some "128x128"
  | FileType.Icon256 => some "256x256"
  | FileType.Icon512 => some "512x512"
  | _ => none

/-- `FileType::output_file_name` of `src/forge/deb_files.rs`. -/
def FileType.output_file_name (ft : FileType) (linux_binary_name : String) : String :=
  match ft with
  | FileType.Control => "control"
  | FileType.Changelog => "changelog"
  | FileType.Copyright => "copyright"
  | FileType.Binary => linux_binary_name
  | FileType.Icon64 | FileType.Icon128 | FileType.Icon256 | FileType.Icon512 =>
    linux_binary_name ++ ".png"
  | FileType.Desktop => linux_binary_name ++ ".desktop"
  | FileType.Install => "install"
  | FileType.PreInst => "preinst"
  | FileType.PostInst => "postinst"
  | FileType.PreRm => "prerm"
  | FileType.PostRm => "postrm"
  | FileType.ConfFiles => "conffiles"
  | FileType.Watch => "watch"
  | FileType.Format => "format"
  | FileType.Dirs => "dirs"
  | FileType.Docs => "docs"
  | FileType.Menu => "menu"
  | FileType.ManPages => "manpages"

/-- The variant name printed by the derived `Debug` impl (used by the
duplicate-role panic message). -/
def FileType.debugName : FileType → String
  | FileType.Control => "Control"
  | FileType.Changelog => "Changelog"
  | FileType.Copyright => "Copyright"
  | FileType.Binary => "Binary"
  | FileType.Icon64 => "Icon64"
  | FileType.Icon128 => "Icon128"
  | FileType.Icon256 => "Icon256"
  | FileType.Icon512 => "Icon512"
  | FileType.Desktop => "Desktop"
  | FileType.Install => "Install"
  | FileType.PreInst => "PreInst"
  | FileType.PostInst => "PostInst"
  | FileType.PreRm => "PreRm"
  | FileType.PostRm => "PostRm"
  | FileType.ConfFiles => "ConfFiles"
  | FileType.Watch => "Watch"
  | FileType.Format => "Format"
  | FileType.Dirs => "Dirs"
  | FileType.Docs => "Docs"
  | FileType.Menu => "Menu"
  | FileType.ManPages => "ManPages"

/-- `DebParser::debian_file` of `src/forge/deb_files.rs`: the pure file
classifier, applied to the entry's file name. -/
def debian_file (name_str : String) : Option FileType :=
  match rsplitOnce name_str '.' with
  | some (_, extension) =>
    if extension = "desktop" then some FileType.Desktop
    else if ICON_FORMATS.any (fun fmt => extension == fmt) then
      ICONS.find? (fun icon => strContains name_str (icon.width.getD ""))
    else none
  | none => FileType.fromStr name_str

/-- The `Variables` struct of `src/forge/mod.rs`. -/
structure Variables where
  project_dir : String
  binary_name : String
  linux_binary_name : String
  version : String
  architecture : Architecture

/-- `Variables::replacements` of `src/forge/mod.rs`: the five ordered literal
substitutions. -/
def Variables.replacements (v : Variables) : List (String × String) :=
  [("$BinaryName", v.binary_name),
   ("$LinuxBinaryName", v.linux_binary_name),
   ("$Version", v.version),
   ("$Target", v.architecture.target),
   ("$Architecture", v.architecture.short)]

/-- `Variables::get_binary_path` of `src/forge/deb_files.rs`. -/
def Variables.get_binary_path (v : Variables) : String :=
  pathJoin (pathJoin v.project_dir v.architecture.platform_bin_path) v.binary_name

/-- `Variables::get_file_type_path` of `src/forge/deb_files.rs`: the staging
root followed by the role's fixed output subdirectory. -/
def Variables.get_file_type_path (v : Variables) (file_type : FileType) : String :=
  let out := pathJoin v.project_dir
    ("build/tmp/dist/linux/" ++ v.linux_binary_name ++ "-" ++ v.version)
  match file_type with
  | FileType.Changelog | FileType.Copyright =>
    pathJoin out ("usr/share/doc/" ++ v.linux_binary_name)
  | FileType.Icon64 | FileType.Icon128 | FileType.Icon256 | FileType.Icon512 =>
    pathJoin out ("usr/share/icons/hicolor/" ++ (file_type.resolution.getD "") ++ "/apps")
  | FileType.Binary => pathJoin out "usr/local/bin"
  | FileType.Desktop => pathJoin out "usr/share/applications"
  | FileType.Format => pathJoin out "DEBIAN/source"
  | _ => pathJoin out "DEBIAN"

/-- `Variables::write_file` of `src/forge/mod.rs`, functionally: given the
source contents `fsc` (a map from path to bytes) and the source path
`input`, produce the destination path and the bytes written there.  The
icon branch copies the source verbatim; the text branch rewrites line by
line, folding the five replacements over each line and appending a line
feed. -/
def Variables.write_file (v : Variables) (fsc : String → String) (input : String)
    (file_type : FileType) : String × String :=
  let output_dir := v.get_file_type_path file_type
  let output := pathJoin output_dir (file_type.output_file_name v.linux_binary_name)
  if file_type.is_icon then
    (output, fsc input)
  else
    (output,
      (rustLines (fsc input)).foldl
        (fun out line =>
          out ++ ((v.replacements.foldl (fun l kv => strReplace l kv.1 kv.2) line).push '\n'))
        "")

/-- The role-to-source-path collection (`DebFiles = HashMap<FileType, PathBuf>`
in `src/forge/mod.rs`), modelled extensionally. -/
def DebFiles := FileType → Option String

/-- `DebCollector::try_insert_deb` of `src/forge/mod.rs` applied to an entry
with the given file name and full path: classify the name, and on a match
insert the path under the role; an already-present role is the fatal
duplicate-role panic (the `dry_run` printing is ignored). -/
def try_insert_deb (m : DebFiles) (name path : String) : Except String DebFiles :=
  match debian_file name with
  | none => Except.ok m
  | some deb_file =>
    match m deb_file with
    | some _ =>
      Except.error ("Error: found more than 1 " ++ deb_file.debugName ++ " file")
    | none =>
      Except.ok (fun ft => if ft = deb_file then some path else m ft)

/-- The `SearchDir` enum of `src/forge/mod.rs`. -/
inductive SearchDir where
  | Assets
  | Build
  | Debian
deriving DecidableEq

/-- `SearchDir::name` of `src/forge/mod.rs`. -/
def SearchDir.name : SearchDir → String
  | SearchDir.Assets => "assets"
  | SearchDir.Build => "build"
  | SearchDir.Debian => "debian"

/-- A directory entry as seen by the scanner (`fs::DirEntry`); symbolic links
and other non-file non-directory entries are not modelled (the source skips
them). -/
inductive FsEntry where
  | file (name : String)
  | dir (name : String) (children : List FsEntry)

/-- `SearchDir::scan` of `src/forge/mod.rs` over an explicit directory tree:
`path` is the directory being scanned and `es` its (ordered) entries.  The
first component collects the paths passed to `fs::remove_dir_all`; the
second is the updated collection, or the first fatal error.  Mirrors the
source's `match`: Assets/Debian recurse into every subdirectory, Build
special-cases the `tmp` child (deleted outside dry-run) and the `debian`
child (switched to Debian-mode scanning) and skips any other subdirectory,
and a plain file in any mode goes through `try_insert_deb`. -/
def scanList (mode : SearchDir) (dry_run : Bool) (path : String) (m : DebFiles) :
    List FsEntry → List String × Except String DebFiles
  | [] => ([], Except.ok m)
  | FsEntry.file name :: rest =>
    (match try_insert_deb m name (pathJoin path name) with
     | Except.error err => ([], Except.error err)
     | Except.ok m2 => scanList mode dry_run path m2 rest)
  | FsEntry.dir name children :: rest =>
    let step : List String × Except String DebFiles :=
      match mode with
      | SearchDir.Assets => scanList SearchDir.Assets dry_run (pathJoin path name) m children
      | SearchDir.Debian => scanList SearchDir.Debian dry_run (pathJoin path name) m children
      | SearchDir.Build =>
        if dry_run = false ∧ name = "tmp" then ([pathJoin path name], Except.ok m)
        else if name = SearchDir.Debian.name then
          scanList SearchDir.Debian dry_run (pathJoin path name) m children
        else ([], Except.ok m)
    match step with
    | (dels, Except.error err) => (dels, Except.error err)
    | (dels, Except.ok m2) =>
      let res := scanList mode dry_run path m2 rest
      (dels ++ res.1, res.2)
termination_by es => sizeOf es

/-- The required-role extraction of `Forge::from` (`src/forge/mod.rs`,
the `required` array): remove Control, Changelog and Copyright from the
collection in that order, each absence being its fatal `expect` message. -/
def check_required (m : DebFiles) : Except String (List (FileType × String)) :=
  match m FileType.Control with
  | none => Except.error "Error: Could not locate a control file"
  | some control =>
    match m FileType.Changelog with
    | none => Except.error "Error: Could not locate a changelog file"
    | some changelog =>
      match m FileType.Copyright with
      | none => Except.error "Error: Could not find copyright file"
      | some copyright =>
        Except.ok
          [(FileType.Control, control),
           (FileType.Changelog, changelog),
           (FileType.Copyright, copyright)]

/-- A fixed enumeration of every `FileType`, used to list the optional
collection's entries. -/
def allFileTypes : List FileType :=
  [FileType.Control, FileType.Changelog, FileType.Copyright, FileType.Binary,
   FileType.Icon64, FileType.Icon128, FileType.Icon256, FileType.Icon512,
   FileType.Desktop, FileType.Install, FileType.PreInst, FileType.PostInst,
   FileType.PreRm, FileType.PostRm, FileType.ConfFiles, FileType.Watch,
   FileType.Format, FileType.Dirs, FileType.Docs, FileType.Menu, FileType.ManPages]

/-- The effect of `HashMap::remove_entry` for the three required roles: the
optional collection that remains after `Forge::from` extracted them. -/
def removeRequired (m : DebFiles) : DebFiles :=
  fun ft =>
    if ft = FileType.Control ∨ ft = FileType.Changelog ∨ ft = FileType.Copyright then none
    else m ft

/-- The run from the end of the traversal onwards (`Forge::from`'s required
extraction followed by `Forge::forge`): on a missing required role the
fatal error occurs and nothing is written; otherwise every collected file
is materialized through `Variables::write_file` and the total count is
reported.  The first component is the list of (destination, bytes) writes. -/
def run_forge (v : Variables) (fsc : String → String) (m : DebFiles) :
    List (String × String) × Except String Nat :=
  match check_required m with
  | Except.error e => ([], Except.error e)
  | Except.ok required =>
    let optional := removeRequired m
    let files := required ++ allFileTypes.filterMap (fun ft => (optional ft).map (fun p => (ft, p)))
    (files.map (fun fp => v.write_file fsc fp.2 fp.1), Except.ok files.length)

/-- Modelled from the spec: the assembler step that handles the project
binary is not among the provided source files (`Variables::get_binary_path`
is declared but has no caller there, and the provided `Forge::from` lacks
the step).  Per the spec, compute the expected binary location, terminate
with a fatal error naming that path if no file exists there, and otherwise
insert the Binary role mapped to that path into the collection. -/
def assemble_binary (v : Variables) (exists_at : String → Bool) (m : DebFiles) :
    Except String DebFiles :=
  let bin := v.get_binary_path
  if exists_at bin then
    Except.ok (fun ft => if ft = FileType.Binary then some bin else m ft)
  else
    Except.error ("Error: could not find binary at " ++ bin)

/-- Claim-side formulation (C1): the extension of a filename, i.e. the text
after its last dot, when a dot is present. -/
def lastExt (s : String) : Option String :=
  if '.' ∈ s.data then some ⟨(s.data.reverse.takeWhile (fun x => x ≠ '.')).reverse⟩ else none

/-- Claim-side formulation (C1): the fixed reserved-basename table, in the
order listed by the claim. -/
def RESERVED_TABLE : List (String × FileType) :=
  [("control", FileType.Control), ("changelog", FileType.Changelog),
   ("copyright", FileType.Copyright), ("install", FileType.Install),
   ("preinst", FileType.PreInst), ("postinst", FileType.PostInst),
   ("prerm", FileType.PreRm), ("postrm", FileType.PostRm),
   ("conffiles", FileType.ConfFiles), ("watch", FileType.Watch),
   ("format", FileType.Format), ("dirs", FileType.Dirs),
   ("docs", FileType.Docs), ("desktop", FileType.Desktop),
   ("menu", FileType.Menu), ("manpages", FileType.ManPages)]

/-- Claim-side formulation (C1): the icon roles paired with their decimal
width tokens, in the fixed order 64, 128, 256, 512. -/
def ICON_WIDTH_ORDER : List (FileType × String) :=
  [(FileType.Icon64, "64"), (FileType.Icon128, "128"),
   (FileType.Icon256, "256"), (FileType.Icon512, "512")]

/-- Claim-side formulation (C1): the classifier exactly as the claim words
it — desktop extension, then icon-image extensions matched by the first
width token occurring as a substring, then any other extension unclassified,
then the reserved-basename table for extensionless names. -/
def claimClassify (name : String) : Option FileType :=
  match lastExt name with
  | some ext =>
    if ext = "desktop" then some FileType.Desktop
    else if ext ∈ ICON_FORMATS then
      (ICON_WIDTH_ORDER.find? (fun p => strContains name p.2)).map Prod.fst
    else none
  | none => List.lookup name RESERVED_TABLE

/-- Claim-side formulation (C7): the five literal replacements applied in the
claim's fixed order. -/
def claimLineSubst (v : Variables) (line : String) : String :=
  strReplace
    (strReplace
      (strReplace
        (strReplace (strReplace line "$BinaryName" v.binary_name)
          "$LinuxBinaryName" v.linux_binary_name)
        "$Version" v.version)
      "$Target" v.architecture.target)
    "$Architecture" v.architecture.short

/-- Claim-side formulation (C8): the role's fixed output subdirectory under
the staging root, exactly as enumerated by the claim. -/
def claimSubdir (ft : FileType) (linux_binary_name : String) : String :=
  match ft with
  | FileType.Changelog | FileType.Copyright => "usr/share/doc/" ++ linux_binary_name
  | FileType.Icon64 => "usr/share/icons/hicolor/64x64/apps"
  | FileType.Icon128 => "usr/share/icons/hicolor/128x128/apps"
  | FileType.Icon256 => "usr/share/icons/hicolor/256x256/apps"
  | FileType.Icon512 => "usr/share/icons/hicolor/512x512/apps"
  | FileType.Binary => "usr/local/bin"
  | FileType.Desktop => "usr/share/applications"
  | FileType.Format => "DEBIAN/source"
  | _ => "DEBIAN"

/-- Claim-side formulation (C8): the role's fixed output filename — icon
roles, Desktop and Binary use the Linux-normalized binary name, the rest use
their fixed conventional Debian filenames. -/
def claimFileName (ft : FileType) (linux_binary_name : String) : String :=
  match ft with
  | FileType.Icon64 | FileType.Icon128 | FileType.Icon256 | FileType.Icon512 =>
    linux_binary_name ++ ".png"
  | FileType.Desktop => linux_binary_name ++ ".desktop"
  | FileType.Binary => linux_binary_name
  | FileType.Control => "control"
  | FileType.Changelog => "changelog"
  | FileType.Copyright => "copyright"
  | FileType.Install => "install"
  | FileType.PreInst => "preinst"
  | FileType.PostInst => "postinst"
  | FileType.PreRm => "prerm"
  | FileType.PostRm => "postrm"
  | FileType.ConfFiles => "conffiles"
  | FileType.Watch => "watch"
  | FileType.Format => "format"
  | FileType.Dirs => "dirs"
  | FileType.Docs => "docs"
  | FileType.Menu => "menu"
  | FileType.ManPages => "manpages"

/-- The alias strings the source maps to `Amd64`, ASCII-lowercased. -/
def AMD_ALIASES : List String := ["x86_64-unknown-linux-gnu", "amd", "x86", "x86_64"]

/-- The alias strings the source maps to `Arm64`, ASCII-lowercased. -/
def ARM_ALIASES : List String := ["aarch64-unknown-linux-gnu", "arm", "aarch64"]

/-- Helper: the reserved-basename match of the source equals lookup in the
claim's table. -/
theorem fromStr_eq_lookup (s : String) : FileType.fromStr s = List.lookup s RESERVED_TABLE := by
  unfold FileType.fromStr
  split
  case h_17 =>
    rename_i h1 h2 h3 h4 h5 h6 h7 h8 h9 h10 h11 h12 h13 h14 h15 h16
    simp [RESERVED_TABLE, List.lookup,
      beq_eq_false_iff_ne.mpr h1, beq_eq_false_iff_ne.mpr h2, beq_eq_false_iff_ne.mpr h3,
      beq_eq_false_iff_ne.mpr h4, beq_eq_false_iff_ne.mpr h5, beq_eq_false_iff_ne.mpr h6,
      beq_eq_false_iff_ne.mpr h7, beq_eq_false_iff_ne.mpr h8, beq_eq_false_iff_ne.mpr h9,
      beq_eq_false_iff_ne.mpr h10, beq_eq_false_iff_ne.mpr h11, beq_eq_false_iff_ne.mpr h12,
      beq_eq_false_iff_ne.mpr h13, beq_eq_false_iff_ne.mpr h14, beq_eq_false_iff_ne.mpr h15,
      beq_eq_false_iff_ne.mpr h16]
  all_goals simp_all [RESERVED_TABLE, List.lookup]

/-- Helper: the source's search through `ICONS` coincides with the claim's
search through the width-token table. -/
theorem find_icon_eq (name : String) :
    ICONS.find? (fun icon => strContains name (icon.width.getD "")) =
      (ICON_WIDTH_ORDER.find? (fun p => strContains name p.2)).map Prod.fst := by
  simp only [ICONS, ICON_WIDTH_ORDER, List.find?]
  cases h64 : strContains name "64" <;> cases h128 : strContains name "128" <;>
    cases h256 : strContains name "256" <;> cases h512 : strContains name "512" <;>
      simp_all [FileType.width]

/-- C1: the file classifier applies the four rules in order — a `desktop`
extension classifies as Desktop; an icon-image extension selects the first
icon role in the order 64, 128, 256, 512 whose width token is a substring of
the filename (none occurring means no role); any other extension yields no
role; a name with no extension is looked up in the fixed reserved-basename
table.  An unclassified filename is never an error (the classifier is total
and merely yields no role). -/
theorem classifier_rules (name : String) : debian_file name = claimClassify name := by
  unfold debian_file claimClassify lastExt rsplitOnce
  by_cases h : '.' ∈ name.data
  · simp only [h, if_true]
    split_ifs <;> simp_all [find_icon_eq name]
  · simp only [h, if_false]
    exact fromStr_eq_lookup name

/-- C2: the assembler computes the expected binary location as
`project_dir/platform_bin_path/binary_name`; if no file exists there the run
fails with an error naming that path, and otherwise the Binary role mapped to
that path is in the collection, so any later successful materialization run
writes the binary along with the other files. -/
theorem binary_presence (v : Variables) (exists_at : String → Bool) (m : DebFiles) :
    v.get_binary_path =
      pathJoin (pathJoin v.project_dir v.architecture.platform_bin_path) v.binary_name ∧
    (exists_at v.get_binary_path = false →
       assemble_binary v exists_at m =
         Except.error ("Error: could not find binary at " ++ v.get_binary_path)) ∧
    (exists_at v.get_binary_path = true →
       ∃ m2, assemble_binary v exists_at m = Except.ok m2 ∧
         m2 FileType.Binary = some v.get_binary_path ∧
         ∀ fsc req, check_required m2 = Except.ok req →
           v.write_file fsc v.get_binary_path FileType.Binary ∈ (run_forge v fsc m2).1) := by
  refine ⟨rfl, ?_, ?_⟩
  · intro hfalse
    simp only [assemble_binary, hfalse]
    rfl
  · intro htrue
    refine ⟨fun ft => if ft = FileType.Binary then some v.get_binary_path else m ft, ?_, ?_, ?_⟩
    · simp only [assemble_binary, htrue]
      rfl
    · simp
    · intro fsc req hreq
      unfold run_forge
      rw [hreq]
      simp only [List.map_append, List.mem_append]
      right
      simp only [List.mem_map, List.mem_filterMap]
      refine ⟨(FileType.Binary, v.get_binary_path), ⟨FileType.Binary, ?_⟩, rfl⟩
      simp [allFileTypes, removeRequired]

/-- Witness for C2 at a concrete project whose binary exists. -/
theorem binary_presence_witness :
    ∃ m2,
      assemble_binary (Variables.mk "p" "app" "app" "1" Architecture.Amd64) (fun _ => true)
          (fun _ => none) = Except.ok m2 ∧
      m2 FileType.Binary =
        some (Variables.mk "p" "app" "app" "1" Architecture.Amd64).get_binary_path := by
  obtain ⟨m2, h1, h2, _⟩ :=
    (binary_presence (Variables.mk "p" "app" "app" "1" Architecture.Amd64) (fun _ => true)
      (fun _ => none)).2.2 rfl
  exact ⟨m2, h1, h2⟩

/-- C5: inserting a classified file whose role is already present is the
fatal duplicate-role error naming the role; inserting into a collection not
containing the role succeeds and yields the old collection plus that one
mapping. -/
theorem duplicate_role (m : DebFiles) (name path : String) (ft : FileType)
    (hclass : debian_file name = some ft) :
    ((∃ q, m ft = some q) →
       try_insert_deb m name path =
         Except.error ("Error: found more than 1 " ++ ft.debugName ++ " file")) ∧
    (m ft = none →
       try_insert_deb m name path =
         Except.ok (fun ft2 => if ft2 = ft then some path else m ft2)) := by
  unfold try_insert_deb
  rw [hclass]
  dsimp only
  constructor
  · rintro ⟨q, hq⟩
    rw [hq]
  · intro hnone
    rw [hnone]

/-- Witness for C5: a second `control` file is a duplicate-role error, and a
first insertion extends the collection by exactly that mapping. -/
theorem duplicate_role_witness :
    try_insert_deb (fun ft => if ft = FileType.Control then some "a" else none) "control" "b" =
        Except.error "Error: found more than 1 Control file" ∧
    try_insert_deb (fun _ => none) "control" "b" =
        Except.ok (fun ft2 => if ft2 = FileType.Control then some "b" else none) := by
  constructor
  · exact (duplicate_role (fun ft => if ft = FileType.Control then some "a" else none)
      "control" "b" FileType.Control rfl).1 ⟨"a", rfl⟩
  · exact (duplicate_role (fun _ => none) "control" "b" FileType.Control rfl).2 rfl

/-- C6: when Control, Changelog or Copyright is missing after the traversal,
the run ends with the fatal error naming a missing role and nothing is
materialized (the output list is empty). -/
theorem required_roles (v : Variables) (fsc : String → String) (m : DebFiles)
    (hmiss : m FileType.Control = none ∨ m FileType.Changelog = none ∨
       m FileType.Copyright = none) :
    (run_forge v fsc m).1 = [] ∧
    ∃ e, (run_forge v fsc m).2 = Except.error e ∧
      ((m FileType.Control = none ∧ e = "Error: Could not locate a control file") ∨
       (m FileType.Changelog = none ∧ e = "Error: Could not locate a changelog file") ∨
       (m FileType.Copyright = none ∧ e = "Error: Could not find copyright file")) := by
  unfold run_forge check_required
  cases hc : m FileType.Control with
  | none => exact ⟨rfl, _, rfl, Or.inl ⟨rfl, rfl⟩⟩
  | some c =>
    cases hch : m FileType.Changelog with
    | none => exact ⟨rfl, _, rfl, Or.inr (Or.inl ⟨rfl, rfl⟩)⟩
    | some ch =>
      cases hcp : m FileType.Copyright with
      | none => exact ⟨rfl, _, rfl, Or.inr (Or.inr ⟨rfl, rfl⟩)⟩
      | some cp => simp [hc, hch, hcp] at hmiss

/-- Witness for C6: a project missing its changelog produces no writes. -/
theorem required_roles_witness :
    (run_forge (Variables.mk "p" "a" "a" "1" Architecture.Amd64) (fun _ => "")
        (fun ft => if ft = FileType.Control then some "c" else none)).1 = [] := by
  exact (required_roles (Variables.mk "p" "a" "a" "1" Architecture.Amd64) (fun _ => "")
    (fun ft => if ft = FileType.Control then some "c" else none)
    (Or.inr (Or.inl rfl))).1

/-- Helper: appending `String`s is associative. -/
theorem str_append_data (a b : String) : a ++ b = ⟨a.data ++ b.data⟩ := rfl

/-- Helper: the empty string is a right identity. -/
theorem str_append_empty (a : String) : a ++ "" = a := by
  cases a with
  | mk d => rw [str_append_data]; simp

/-- Helper: the empty string is a left identity. -/
theorem str_empty_append (a : String) : "" ++ a = a := by
  cases a with
  | mk d => rw [str_append_data]; simp

/-- Helper: string append is associative. -/
theorem str_append_assoc (a b c : String) : a ++ b ++ c = a ++ (b ++ c) := by
  cases a with | mk da => cases b with | mk db => cases c with | mk dc =>
    simp [str_append_data]

/-- Helper: folding append over strings factors out the accumulator. -/
theorem foldl_append_acc (ls : List String) (acc : String) :
    ls.foldl (fun x y => x ++ y) acc = acc ++ ls.foldl (fun x y => x ++ y) "" := by
  induction ls generalizing acc with
  | nil => simp [str_append_empty]
  | cons x xs ih =>
    simp only [List.foldl_cons]
    rw [ih (acc ++ x), ih ("" ++ x), str_empty_append, str_append_assoc]

/-- Helper: `String.join` on a cons. -/
theorem join_cons (y : String) (ys : List String) :
    String.join (y :: ys) = y ++ String.join ys := by
  unfold String.join
  simp only [List.foldl_cons]
  rw [str_empty_append, foldl_append_acc]

/-- Helper: a left fold that appends `f` of every element equals the joined
map. -/
theorem foldl_append_join (f : String → String) (ls : List String) (acc : String) :
    ls.foldl (fun out l => out ++ f l) acc = acc ++ String.join (ls.map f) := by
  induction ls generalizing acc with
  | nil => simp [String.join, str_append_empty]
  | cons x xs ih =>
    simp only [List.foldl_cons, List.map_cons]
    rw [ih (acc ++ f x), join_cons, str_append_assoc]

/-- Helper: a textual role is not an icon role. -/
theorem is_text_not_icon (ft : FileType) (h : ft.is_text = true) : ft.is_icon = false := by
  cases ft <;> simp_all [FileType.is_text, FileType.is_icon]

/-- C7: for every textual role the materializer writes the destination line
by line — each source line gets the five literal replacements in the fixed
order `$BinaryName`, `$LinuxBinaryName`, `$Version`, `$Target`,
`$Architecture` and is emitted followed by exactly one line feed, so the
output is the concatenation of the rewritten lines each terminated by a
single LF, whatever the source's line endings were. -/
theorem text_substitution (v : Variables) (fsc : String → String) (input : String)
    (ft : FileType) (htext : ft.is_text = true) :
    (v.write_file fsc input ft).2 =
      String.join ((rustLines (fsc input)).map (fun line => (claimLineSubst v line).push '\n')) := by
  unfold Variables.write_file
  rw [is_text_not_icon ft htext]
  simp only [Bool.false_eq_true, if_false]
  have hfun : (fun out line =>
        out ++ (List.foldl (fun l kv => strReplace l kv.1 kv.2) line v.replacements).push '\n') =
      (fun out line => out ++ (claimLineSubst v line).push '\n') := by
    funext out line
    rfl
  rw [hfun]
  exact (foldl_append_join (fun line => (claimLineSubst v line).push '\n')
    (rustLines (fsc input)) "").trans (str_empty_append _)

/-- Witness for C7: the spec's scenario — a control line
`Architecture: $Architecture` under the 64-bit ARM variant becomes
`Architecture: arm64` with a single trailing LF. -/
theorem text_substitution_witness :
    FileType.is_text FileType.Control = true ∧
    ((Variables.mk "p" "my_app" "my-app" "1.0" Architecture.Arm64).write_file
       (fun _ => "Architecture: $Architecture") "in" FileType.Control).2 =
      "Architecture: arm64\n" := by
  constructor
  · rfl
  · rw [text_substitution (Variables.mk "p" "my_app" "my-app" "1.0" Architecture.Arm64)
      (fun _ => "Architecture: $Architecture") "in" FileType.Control rfl]
    decide

/-- C8: every role's materialized destination is the staging root
`project_dir/build/tmp/dist/linux/name-version` joined with the role's fixed
subdirectory joined with the role's fixed output filename. -/
theorem output_paths (v : Variables) (fsc : String → String) (input : String) (ft : FileType) :
    (v.write_file fsc input ft).1 =
      pathJoin
        (pathJoin
          (pathJoin v.project_dir
            ("build/tmp/dist/linux/" ++ v.linux_binary_name ++ "-" ++ v.version))
          (claimSubdir ft v.linux_binary_name))
        (claimFileName ft v.linux_binary_name) := by
  cases ft <;> rfl

/-- C9 counterexample: the claim lists `amd64` among the recognized aliases,
but the source's match arms accept only `amd`, `x86`, `x86_64` and the full
triple, so `amd64` is the fatal invalid-architecture error. -/
theorem resolve_amd64_error :
    Architecture.resolve "amd64" = Except.error "invalid target/architecture: amd64" := rfl

/-- C9 (amended): architecture resolution ASCII-lowercases its input and maps
exactly the aliases `x86_64-unknown-linux-gnu`, `amd`, `x86`, `x86_64` to
Amd64 and `aarch64-unknown-linux-gnu`, `arm`, `aarch64` to Arm64 (so it is
case-insensitive); every other string — `amd64` and `arm64` included — is a
fatal error naming the lowered input; each variant yields its fixed target
triple and Debian short token. -/
theorem architecture_aliases (s : String) :
    (asciiLowercase s ∈ AMD_ALIASES → Architecture.resolve s = Except.ok Architecture.Amd64) ∧
    (asciiLowercase s ∈ ARM_ALIASES → Architecture.resolve s = Except.ok Architecture.Arm64) ∧
    (asciiLowercase s ∉ AMD_ALIASES → asciiLowercase s ∉ ARM_ALIASES →
       Architecture.resolve s =
         Except.error ("invalid target/architecture: " ++ asciiLowercase s)) ∧
    Architecture.target Architecture.Amd64 = "x86_64-unknown-linux-gnu" ∧
    Architecture.target Architecture.Arm64 = "aarch64-unknown-linux-gnu" ∧
    Architecture.short Architecture.Amd64 = "amd64" ∧
    Architecture.short Architecture.Arm64 = "arm64" := by
  unfold Architecture.resolve
  refine ⟨?_, ?_, ?_, rfl, rfl, rfl, rfl⟩
  · intro hmem
    simp only [AMD_ALIASES, List.mem_cons, List.mem_singleton, List.not_mem_nil, or_false] at hmem
    rcases hmem with h | h | h | h <;> rw [h] <;> rfl
  · intro hmem
    simp only [ARM_ALIASES, List.mem_cons, List.mem_singleton, List.not_mem_nil, or_false] at hmem
    rcases hmem with h | h | h <;> rw [h] <;> rfl
  · intro hamd harm
    simp only [AMD_ALIASES, List.mem_cons, List.mem_singleton, List.not_mem_nil, or_false,
      not_or] at hamd
    simp only [ARM_ALIASES, List.mem_cons, List.mem_singleton, List.not_mem_nil, or_false,
      not_or] at harm
    obtain ⟨h1, h2, h3, h4⟩ := hamd
    obtain ⟨h5, h6, h7⟩ := harm
    split <;> simp_all

/-- Witness for C9: the mixed-case alias `ARM` resolves to Arm64. -/
theorem architecture_aliases_witness :
    Architecture.resolve "ARM" = Except.ok Architecture.Arm64 := by
  exact (architecture_aliases "ARM").2.1 (by decide)

/-- C10: an icon role's materialized file carries the destination name
`linux_binary_name.png` whatever the source extension was (here one
classified from a `.jpg` name), and its bytes are the source bytes copied
verbatim — no format conversion happens. -/
theorem icon_copy (v : Variables) (fsc : String → String) (name input : String) (ft : FileType)
    (hclass : debian_file name = some ft) (hicon : ft.is_icon = true) :
    (v.write_file fsc input ft).2 = fsc input ∧
    (v.write_file fsc input ft).1 =
      pathJoin (v.get_file_type_path ft) (v.linux_binary_name ++ ".png") := by
  constructor
  · unfold Variables.write_file
    rw [hicon]
    rfl
  · unfold Variables.write_file
    rw [hicon]
    cases ft <;> simp_all [FileType.is_icon, FileType.output_file_name]

/-- Witness for C10: `icon-128.jpg` classifies as the 128 icon role and is
copied byte-for-byte to `.../128x128/apps/my-app.png`. -/
theorem icon_copy_witness :
    debian_file "icon-128.jpg" = some FileType.Icon128 ∧
    ((Variables.mk "p" "my_app" "my-app" "1.0" Architecture.Amd64).write_file
       (fun _ => "RAWBYTES") "src/icon-128.jpg" FileType.Icon128).2 = "RAWBYTES" ∧
    ((Variables.mk "p" "my_app" "my-app" "1.0" Architecture.Amd64).write_file
       (fun _ => "RAWBYTES") "src/icon-128.jpg" FileType.Icon128).1 =
      "p/build/tmp/dist/linux/my-app-1.0/usr/share/icons/hicolor/128x128/apps/my-app.png" := by
  have h := icon_copy (Variables.mk "p" "my_app" "my-app" "1.0" Architecture.Amd64)
    (fun _ => "RAWBYTES") "icon-128.jpg" "src/icon-128.jpg" FileType.Icon128 rfl rfl
  exact ⟨rfl, h.1, h.2.trans rfl⟩

/-- Helper: every path the scanner ever deletes arises from a Build-mode
scan, outside dry-run, and is the `tmp` child of the scanned directory. -/
theorem scan_dels_spec (mode : SearchDir) (dry_run : Bool) (path : String) (m : DebFiles)
    (es : List FsEntry) :
    ∀ d ∈ (scanList mode dry_run path m es).1,
      mode = SearchDir.Build ∧ dry_run = false ∧ d = pathJoin path "tmp" := by
  induction mode, dry_run, path, m, es using scanList.induct with
  | case1 mode dry path m => simp [scanList]
  | case2 mode dry path m name rest err hins =>
    cases mode <;> simp [scanList, hins]
  | case3 mode dry path m name rest m2 hins ih =>
    have hq : scanList mode dry path m (FsEntry.file name :: rest) =
        scanList mode dry path m2 rest := by
      cases mode <;> simp [scanList, hins]
    rw [hq]
    exact ih
  | case4 mode dry path m name children rest step dels err hstep ihA ihD =>
    intro d hd
    cases mode with
    | Assets =>
      have hstep2 : scanList SearchDir.Assets dry (pathJoin path name) m children =
          (dels, Except.error err) := hstep
      simp only [scanList] at hd
      rw [hstep2] at hd
      dsimp only at hd
      exact absurd ((ihA d (by rw [hstep2]; exact hd)).1) (by simp)
    | Debian =>
      have hstep2 : scanList SearchDir.Debian dry (pathJoin path name) m children =
          (dels, Except.error err) := hstep
      simp only [scanList] at hd
      rw [hstep2] at hd
      dsimp only at hd
      exact absurd ((ihD d (by rw [hstep2]; exact hd)).1) (by simp)
    | Build =>
      have hstep2 : (if dry = false ∧ name = "tmp" then ([pathJoin path name], Except.ok m)
          else if name = SearchDir.Debian.name then
            scanList SearchDir.Debian dry (pathJoin path name) m children
          else ([], Except.ok m)) = (dels, Except.error err) := hstep
      simp only [scanList] at hd
      by_cases hc : dry = false ∧ name = "tmp"
      · rw [if_pos hc] at hstep2
        cases hstep2
      · rw [if_neg hc] at hstep2
        rw [if_neg hc] at hd
        by_cases hdeb : name = SearchDir.Debian.name
        · rw [if_pos hdeb] at hstep2
          rw [if_pos hdeb, hstep2] at hd
          dsimp only at hd
          exact absurd ((ihD d (by rw [hstep2]; exact hd)).1) (by simp)
        · rw [if_neg hdeb] at hstep2
          cases hstep2
  | case5 mode dry path m name children rest step dels m2 hstep ihA ihD ih =>
    intro d hd
    cases mode with
    | Assets =>
      have hstep2 : scanList SearchDir.Assets dry (pathJoin path name) m children =
          (dels, Except.ok m2) := hstep
      simp only [scanList] at hd
      rw [hstep2] at hd
      dsimp only at hd
      rcases List.mem_append.mp hd with hl | hr
      · exact absurd ((ihA d (by rw [hstep2]; exact hl)).1) (by simp)
      · exact absurd ((ih d hr).1) (by simp)
    | Debian =>
      have hstep2 : scanList SearchDir.Debian dry (pathJoin path name) m children =
          (dels, Except.ok m2) := hstep
      simp only [scanList] at hd
      rw [hstep2] at hd
      dsimp only at hd
      rcases List.mem_append.mp hd with hl | hr
      · exact absurd ((ihD d (by rw [hstep2]; exact hl)).1) (by simp)
      · exact absurd ((ih d hr).1) (by simp)
    | Build =>
      have hstep2 : (if dry = false ∧ name = "tmp" then ([pathJoin path name], Except.ok m)
          else if name = SearchDir.Debian.name then
            scanList SearchDir.Debian dry (pathJoin path name) m children
          else ([], Except.ok m)) = (dels, Except.ok m2) := hstep
      simp only [scanList] at hd
      by_cases hc : dry = false ∧ name = "tmp"
      · rw [if_pos hc] at hstep2
        rw [if_pos hc] at hd
        dsimp only at hd
        injection hstep2 with hdels2 hok
        injection hok with hm22
        rcases List.mem_append.mp hd with hl | hr
        · simp only [List.mem_singleton] at hl
          exact ⟨rfl, hc.1, by rw [hl, hc.2]⟩
        · have := ih d (by rw [← hm22]; exact hr)
          exact ⟨rfl, this.2.1, this.2.2⟩
      · rw [if_neg hc] at hstep2
        rw [if_neg hc] at hd
        by_cases hdeb : name = SearchDir.Debian.name
        · rw [if_pos hdeb] at hstep2
          rw [if_pos hdeb, hstep2] at hd
          dsimp only at hd
          rcases List.mem_append.mp hd with hl | hr
          · exact absurd ((ihD d (by rw [hstep2]; exact hl)).1) (by simp)
          · exact ih d hr
        · rw [if_neg hdeb] at hstep2
          rw [if_neg hdeb] at hd
          dsimp only at hd
          injection hstep2 with hdels hok
          injection hok with hm22
          have := ih d (by rw [← hm22]; exact hd)
          exact this

/-- C4: the recursive deletion fires only for the literal `tmp` child of a
directory scanned in Build mode and never in dry-run — a dry run deletes
nothing, Assets- and Debian-mode scans delete nothing at any depth, and any
deleted path is the scanned directory's `tmp` child. -/
theorem tmp_deletion_scope (mode : SearchDir) (dry_run : Bool) (path : String) (m : DebFiles)
    (es : List FsEntry) :
    (dry_run = true → (scanList mode dry_run path m es).1 = []) ∧
    (mode ≠ SearchDir.Build → (scanList mode dry_run path m es).1 = []) ∧
    (∀ d ∈ (scanList mode dry_run path m es).1, d = pathJoin path "tmp") := by
  refine ⟨?_, ?_, fun d hd => (scan_dels_spec mode dry_run path m es d hd).2.2⟩
  · intro hdry
    refine List.eq_nil_iff_forall_not_mem.mpr fun d hd => ?_
    have h := scan_dels_spec mode dry_run path m es d hd
    rw [hdry] at h
    exact absurd h.2.1 (by simp)
  · intro hmode
    refine List.eq_nil_iff_forall_not_mem.mpr fun d hd => ?_
    exact hmode (scan_dels_spec mode dry_run path m es d hd).1

/-- Witness for C4: a dry Build scan over a `tmp` child deletes nothing, an
Assets scan over a `tmp` child deletes nothing, and the one path a real
Build scan deletes is the `tmp` child itself. -/
theorem tmp_deletion_scope_witness :
    (scanList SearchDir.Build true "p" (fun _ => none) [FsEntry.dir "tmp" []]).1 = [] ∧
    (scanList SearchDir.Assets false "p" (fun _ => none) [FsEntry.dir "tmp" []]).1 = [] ∧
    pathJoin "p" "tmp" = pathJoin "p" "tmp" := by
  refine ⟨(tmp_deletion_scope SearchDir.Build true "p" (fun _ => none)
      [FsEntry.dir "tmp" []]).1 rfl,
    (tmp_deletion_scope SearchDir.Assets false "p" (fun _ => none)
      [FsEntry.dir "tmp" []]).2.1 (by simp),
    (tmp_deletion_scope SearchDir.Build false "p" (fun _ => none)
      [FsEntry.dir "tmp" []]).2.2 (pathJoin "p" "tmp") (by simp [scanList])⟩

/-- C3 counterexample: a plain file named `control` sitting directly in a
Build-mode-scanned directory IS classified and inserted, contradicting the
claim that Build mode never classifies plain files. -/
theorem build_files_counterexample :
    ((scanList SearchDir.Build false "b" (fun _ => none) [FsEntry.file "control"]).2.map
      (fun m => m FileType.Control)) = Except.ok (some (pathJoin "b" "control")) := by
  simp [scanList, try_insert_deb, debian_file, rsplitOnce, FileType.fromStr, Except.map]

/-- C3 (amended): in Build mode the only subdirectory children acted on are
the one named exactly `debian` (switched into Debian-mode scanning) and the
one named `tmp` (the deletion special case, outside dry-run); every other
subdirectory is skipped without recursion; plain files in the scanned
directory, however, are classified and inserted exactly as in the other
modes. -/
theorem build_scan_behavior (dry_run : Bool) (path : String) (m : DebFiles) :
    (∀ name children rest, (dry_run = true ∨ name ≠ "tmp") → name ≠ "debian" →
       scanList SearchDir.Build dry_run path m (FsEntry.dir name children :: rest) =
         scanList SearchDir.Build dry_run path m rest) ∧
    (∀ name rest,
       scanList SearchDir.Build dry_run path m (FsEntry.file name :: rest) =
         match try_insert_deb m name (pathJoin path name) with
         | Except.error err => ([], Except.error err)
         | Except.ok m2 => scanList SearchDir.Build dry_run path m2 rest) ∧
    (∀ children rest,
       scanList SearchDir.Build dry_run path m (FsEntry.dir "debian" children :: rest) =
         match scanList SearchDir.Debian dry_run (pathJoin path "debian") m children with
         | (dels, Except.error err) => (dels, Except.error err)
         | (dels, Except.ok m2) =>
           (dels ++ (scanList SearchDir.Build dry_run path m2 rest).1,
             (scanList SearchDir.Build dry_run path m2 rest).2)) ∧
    (∀ children rest, dry_run = false →
       scanList SearchDir.Build dry_run path m (FsEntry.dir "tmp" children :: rest) =
         (pathJoin path "tmp" :: (scanList SearchDir.Build dry_run path m rest).1,
           (scanList SearchDir.Build dry_run path m rest).2)) := by
  refine ⟨?_, ?_, ?_, ?_⟩
  · intro name children rest h1 h2
    have hcond : ¬(dry_run = false ∧ name = "tmp") := by
      rintro ⟨ha, hb⟩
      rcases h1 with h | h
      · rw [h] at ha
        cases ha
      · exact h hb
    have hdeb : ¬(name = SearchDir.Debian.name) := by
      simpa [SearchDir.name] using h2
    simp only [scanList]
    rw [if_neg hcond, if_neg hdeb]
    simp
  · intro name rest
    simp only [scanList]
  · intro children rest
    have hcond : ¬(dry_run = false ∧ ("debian" : String) = "tmp") := by
      rintro ⟨-, hb⟩
      exact absurd hb (by decide)
    simp only [scanList]
    rw [if_neg hcond, if_pos (show ("debian" : String) = SearchDir.Debian.name from rfl)]
  · intro children rest hdry
    subst hdry
    simp only [scanList]
    simp

/-- Witness for C3: a Build-mode scan skips a subdirectory named `x`, and
deletes exactly the `tmp` child when not a dry run. -/
theorem build_scan_behavior_witness :
    scanList SearchDir.Build true "p" (fun _ => none) [FsEntry.dir "x" []] =
        scanList SearchDir.Build true "p" (fun _ => none) [] ∧
    scanList SearchDir.Build false "p" (fun _ => none) [FsEntry.dir "tmp" []] =
        (pathJoin "p" "tmp" :: (scanList SearchDir.Build false "p" (fun _ => none) []).1,
          (scanList SearchDir.Build false "p" (fun _ => none) []).2) := by
  exact ⟨(build_scan_behavior true "p" (fun _ => none)).1 "x" [] [] (Or.inl rfl) (by decide),
    (build_scan_behavior false "p" (fun _ => none)).2.2.2 [] [] rfl⟩
